import Mathlib

/-!
# Window filter, allele comparator and registered alignments of `Caller.h`

A shallow embedding of the three small classes declared in `src/Caller.h`
(`RegisteredAlignment`, `AlleleFilter`, `AllelePtrCmp`) together with the
properties the specification states about them.

`Allele.h` is not among the sources, so the `Allele` record and its
`AlleleType` tag are modelled from the data model of the specification.
Coordinates are natural numbers; the one arithmetic expression of the code,
`a.position + a.length`, is evaluated modulo `2 ^ 64` like the
`long unsigned int` window bounds it is compared with.
-/

namespace FreeBayes

/-! ## Data model -/

/-- Number of values of a `long unsigned int` (LP64): sums wrap modulo this. -/
def ULONG_MOD : Nat := 2 ^ 64

/-- Modelled from the spec: the `AlleleType` enumeration of `Allele.h` (absent
from the sources); the spec lists its values as reference, substitution,
insertion, deletion. -/
inductive AlleleType where
  | reference
  | substitution
  | insertion
  | deletion
  deriving DecidableEq, Repr

/-- Modelled from the spec: the integer value of an enumerator, which is what
the built-in `<` of C++ compares.  Enumerators are numbered in the order the
spec lists them; the proofs below only use that distinct enumerators have
distinct values. -/
def AlleleType.val : AlleleType → Nat
  | .reference => 0
  | .substitution => 1
  | .insertion => 2
  | .deletion => 3

/-- The built-in `<` on enumeration values compares their integer values. -/
instance : LT AlleleType := ⟨fun x y => x.val < y.val⟩

instance (x y : AlleleType) : Decidable (x < y) :=
  inferInstanceAs (Decidable (x.val < y.val))

/-- Modelled from the spec: the `Allele` class of `Allele.h` (absent from the
sources): position, length, type tag, supporting base calls, quality score and
owning sample/read. -/
structure Allele where
  position : Nat
  length : Nat
  type : AlleleType
  bases : String
  quality : Int
  owner : String
  deriving DecidableEq, Repr

/-- The store that `Allele*` values point into: address `p` holds `mem[p]`. -/
abbrev Heap := List Allele

/-- The class `RegisteredAlignment`: an alignment record (of the external type
`BamAlignment`, a parameter here), the pointers to the alleles derived from it
and a mismatch count. -/
structure RegisteredAlignment (BamAlignment : Type) where
  alignment : BamAlignment
  alleles : List Nat
  mismatches : Int

/-- The constructor `RegisteredAlignment(BamAlignment alignment)`: it copies the
record, sets `mismatches(0)` and default-constructs the `alleles` vector. -/
def RegisteredAlignment.new {BamAlignment : Type} (alignment : BamAlignment) :
    RegisteredAlignment BamAlignment :=
  RegisteredAlignment.mk alignment [] 0

/-- The functor `AlleleFilter`, holding the window bounds `start` and `end`. -/
structure AlleleFilter where
  start : Nat
  «end» : Nat
  deriving DecidableEq, Repr

/-- The overload `bool operator()(Allele& a)`:
`!(start >= a.position && end < a.position + a.length)`.
True means the allele is outside of the window. -/
def AlleleFilter.call (f : AlleleFilter) (a : Allele) : Bool :=
  !(decide (f.start ≥ a.position) &&
    decide (f.«end» < (a.position + a.length) % ULONG_MOD))

/-- The overload `bool operator()(Allele*& a)`:
`!(start >= a->position && end < a->position + a->length)`.
The pointer is dereferenced in `mem`; a dangling pointer has no result. -/
def AlleleFilter.callPtr (f : AlleleFilter) (mem : Heap) (a : Nat) : Option Bool :=
  match mem[a]? with
  | none => none
  | some obj =>
    some (!(decide (f.start ≥ obj.position) &&
      decide (f.«end» < (obj.position + obj.length) % ULONG_MOD)))

/-- The functor `AllelePtrCmp`: `a->type < b->type`, on the two pointees. -/
def AllelePtrCmp (a b : Allele) : Bool :=
  decide (a.type < b.type)

/-- The erase/`remove_if` idiom of the standard library: drops every element
for which the predicate returns true and keeps the others in order. -/
def removeIf {α : Type} (pred : α → Bool) (l : List α) : List α :=
  l.filter (fun x => !pred x)

/-- The contract name of the specification: `withinWindow` is the negation of
the filter built from the window bounds. -/
def withinWindow (s e : Nat) (a : Allele) : Bool :=
  !(AlleleFilter.mk s e).call a

/-- The single predicate over a span (position and length) that the design
notes of the specification ask for in place of the two overloads. -/
def spanOutside (s e position length : Nat) : Bool :=
  !(decide (position ≤ s) && decide (e < (position + length) % ULONG_MOD))

/-- An allele record with the given span; the other fields are blank. -/
def spanAllele (p l : Nat) : Allele :=
  Allele.mk p l AlleleType.reference "" 0 ""

/-- The span `[position, position + length)` of the allele and the half-open
window `[s, e)` have a coordinate in common. -/
def SpanMeets (s e : Nat) (a : Allele) : Prop :=
  ∃ x, a.position ≤ x ∧ x < a.position + a.length ∧ s ≤ x ∧ x < e


/-! ## Helper lemmas -/

theorem call_eq_false_iff (f : AlleleFilter) (a : Allele) :
    f.call a = false ↔
      a.position ≤ f.start ∧ f.«end» < (a.position + a.length) % ULONG_MOD := by
  simp [AlleleFilter.call]

theorem call_eq_true_iff (f : AlleleFilter) (a : Allele) :
    f.call a = true ↔
      ¬ (a.position ≤ f.start ∧ f.«end» < (a.position + a.length) % ULONG_MOD) := by
  rw [← call_eq_false_iff]
  cases f.call a <;> simp

theorem wrap_le (n : Nat) : n % ULONG_MOD ≤ n :=
  Nat.mod_le n ULONG_MOD

theorem wrap_of_lt {n : Nat} (h : n < ULONG_MOD) : n % ULONG_MOD = n :=
  Nat.mod_eq_of_lt h

theorem withinWindow_iff (s e : Nat) (a : Allele) :
    withinWindow s e a = true ↔
      a.position ≤ s ∧ e < (a.position + a.length) % ULONG_MOD := by
  simp [withinWindow, AlleleFilter.call]

theorem AlleleType.val_injective {x y : AlleleType} (h : x.val = y.val) : x = y := by
  cases x <;> cases y <;> first | rfl | cases h

theorem AlleleType.lt_iff_val (x y : AlleleType) : x < y ↔ x.val < y.val :=
  Iff.rfl

theorem allelePtrCmp_iff_val (a b : Allele) :
    AllelePtrCmp a b = true ↔ a.type.val < b.type.val := by
  simp [AllelePtrCmp, AlleleType.lt_iff_val]

theorem allelePtrCmp_false_iff_val (a b : Allele) :
    AllelePtrCmp a b = false ↔ b.type.val ≤ a.type.val := by
  simp [AllelePtrCmp, AlleleType.lt_iff_val]

theorem incomparable_iff_type_eq (a b : Allele) :
    (AllelePtrCmp a b = false ∧ AllelePtrCmp b a = false) ↔ a.type = b.type := by
  rw [allelePtrCmp_false_iff_val, allelePtrCmp_false_iff_val]
  constructor
  · intro h
    exact AlleleType.val_injective (le_antisymm h.2 h.1)
  · intro h
    rw [h]
    exact ⟨le_refl _, le_refl _⟩

/-! ## C1: the window filter against span intersection -/

/-- C1 (as stated, refuted): for the window `[0, 10)` the allele with span
`[5, 7)` intersects the window, yet `withinWindow` is false, so `withinWindow`
is not equivalent to span intersection. -/
theorem withinWindow_not_intersection :
    ¬ (withinWindow 0 10 (spanAllele 5 2) = true ↔ SpanMeets 0 10 (spanAllele 5 2)) := by
  intro h
  have hmeet : SpanMeets 0 10 (spanAllele 5 2) :=
    ⟨5, by decide, by decide, by decide, by decide⟩
  have hin := h.mpr hmeet
  revert hin
  decide

/-- C1 (amended): without overflow in `p + l`, `withinWindow s e A` is true
exactly when `p ≤ s` and `e < p + l`; and for a non-empty window `s < e` an
allele that is within the window does intersect `[s, e)`. -/
theorem withinWindow_iff_bounds_in_span (s e : Nat) (a : Allele)
    (hno : a.position + a.length < ULONG_MOD) :
    (withinWindow s e a = true ↔ a.position ≤ s ∧ e < a.position + a.length) ∧
    (s < e → withinWindow s e a = true → SpanMeets s e a) := by
  have hiff := withinWindow_iff s e a
  rw [wrap_of_lt hno] at hiff
  refine ⟨hiff, fun hse hin => ?_⟩
  obtain ⟨hp, he⟩ := hiff.mp hin
  exact ⟨s, hp, by omega, le_refl s, hse⟩

/-- Witness of C1 (amended): window `[3, 6)` and the allele with span `[2, 9)`. -/
theorem withinWindow_iff_bounds_in_span_witness :
    (spanAllele 2 7).position + (spanAllele 2 7).length < ULONG_MOD ∧
    ((withinWindow 3 6 (spanAllele 2 7) = true ↔
        (spanAllele 2 7).position ≤ 3 ∧
          6 < (spanAllele 2 7).position + (spanAllele 2 7).length) ∧
      (3 < 6 → withinWindow 3 6 (spanAllele 2 7) = true →
        SpanMeets 3 6 (spanAllele 2 7))) :=
  ⟨by decide, withinWindow_iff_bounds_in_span 3 6 (spanAllele 2 7) (by decide)⟩

/-! ## C2: spans disjoint from the window -/

/-- C2 (as stated, refuted): for the window with `s = e = 5` and the allele
with span `[5, 6)`, all premises of the claim hold (`s ≤ e`, no overflow,
`e ≤ p`), yet the filter returns false: the allele is kept as in-window. -/
theorem right_disjoint_kept_at_point_window :
    (5 : Nat) ≤ 5 ∧
    (spanAllele 5 1).position + (spanAllele 5 1).length < ULONG_MOD ∧
    5 ≤ (spanAllele 5 1).position ∧
    (AlleleFilter.mk 5 5).call (spanAllele 5 1) = false ∧
    withinWindow 5 5 (spanAllele 5 1) = true := by
  decide

/-- C2 (amended): for `s ≤ e` and no overflow in `p + l`, an allele lying
entirely to the left of the window (`p + l ≤ s`), or to the right of it
(`e ≤ p`) other than in the case `s = e = p` with `l > 0`, is outside: the
filter returns true and `withinWindow` is false; and in the case `s = e = p`
with `l > 0` the filter returns false and `withinWindow` is true. -/
theorem disjoint_span_outside (s e : Nat) (a : Allele) (hse : s ≤ e)
    (hno : a.position + a.length < ULONG_MOD) :
    ((a.position + a.length ≤ s ∨
        (e ≤ a.position ∧ ¬ (s = e ∧ e = a.position ∧ 0 < a.length))) →
      (AlleleFilter.mk s e).call a = true ∧ withinWindow s e a = false) ∧
    ((s = e ∧ e = a.position ∧ 0 < a.length) →
      (AlleleFilter.mk s e).call a = false ∧ withinWindow s e a = true) := by
  constructor
  · intro hdis
    have hout : (AlleleFilter.mk s e).call a = true := by
      rw [call_eq_true_iff, wrap_of_lt hno]
      simp only
      omega
    exact ⟨hout, by simp [withinWindow, hout]⟩
  · intro hpt
    have hin : (AlleleFilter.mk s e).call a = false := by
      rw [call_eq_false_iff, wrap_of_lt hno]
      simp only
      omega
    exact ⟨hin, by simp [withinWindow, hin]⟩

/-- Witness of C2 (amended): window `[4, 8)` with the allele of span `[8, 10)`,
which is outside, and the point window at 6 with the allele of span `[6, 9)`,
which is kept. -/
theorem disjoint_span_outside_witness :
    ((AlleleFilter.mk 4 8).call (spanAllele 8 2) = true ∧
      withinWindow 4 8 (spanAllele 8 2) = false) ∧
    ((AlleleFilter.mk 6 6).call (spanAllele 6 3) = false ∧
      withinWindow 6 6 (spanAllele 6 3) = true) :=
  ⟨(disjoint_span_outside 4 8 (spanAllele 8 2) (by decide) (by decide)).1
      (Or.inr ⟨by decide, by decide⟩),
    (disjoint_span_outside 6 6 (spanAllele 6 3) (by decide) (by decide)).2
      ⟨rfl, rfl, by decide⟩⟩

/-! ## C3: eviction at the filter level -/

/-- The filter returns true for every allele whose (machine) end is at or before
a position that the window end lies past. -/
theorem call_true_of_end_le (s e P : Nat) (a : Allele)
    (hend : (a.position + a.length) % ULONG_MOD ≤ P) (hP : P < e) :
    (AlleleFilter.mk s e).call a = true := by
  rw [call_eq_true_iff]
  simp only
  omega

/-- C3: when the window end lies past `P`, the filter returns true for every
allele with `position + length ≤ P`, whatever the window start is, and after
the `remove_if` rebuild with that filter no such allele remains in the list. -/
theorem eviction_at_filter_level (P s e : Nat) (L : List Allele) (hP : P < e) :
    (∀ a : Allele, a.position + a.length ≤ P →
        (AlleleFilter.mk s e).call a = true) ∧
    (∀ a ∈ removeIf (AlleleFilter.mk s e).call L,
        ¬ (a.position + a.length ≤ P)) := by
  have hfilter : ∀ a : Allele, a.position + a.length ≤ P →
      (AlleleFilter.mk s e).call a = true := fun a ha =>
    call_true_of_end_le s e P a (le_trans (wrap_le _) ha) hP
  refine ⟨hfilter, fun a hmem hend => ?_⟩
  have hkept := (List.mem_filter.mp hmem).2
  simp [hfilter a hend] at hkept

/-- Witness of C3: cursor position 6, window `(7, 7)`, a list of three alleles;
only the allele covering 7 survives the rebuild. -/
theorem eviction_at_filter_level_witness :
    (6 : Nat) < 7 ∧
    removeIf (AlleleFilter.mk 7 7).call
      [spanAllele 2 3, spanAllele 5 4, spanAllele 6 1] = [spanAllele 5 4] ∧
    ((∀ a : Allele, a.position + a.length ≤ 6 →
        (AlleleFilter.mk 7 7).call a = true) ∧
      (∀ a ∈ removeIf (AlleleFilter.mk 7 7).call
          [spanAllele 2 3, spanAllele 5 4, spanAllele 6 1],
        ¬ (a.position + a.length ≤ 6))) :=
  ⟨by decide, by decide,
    eviction_at_filter_level 6 7 7
      [spanAllele 2 3, spanAllele 5 4, spanAllele 6 1] (by decide)⟩

/-! ## C4: an allele starting at the window start -/

/-- C4 (as stated, refuted): the allele at position `2 ^ 64 - 1` with length 1
starts at the window start of the window `(2 ^ 64 - 1, 0)` and the window end
0 is below `position + length = 2 ^ 64`, yet the filter returns true: the sum
the code computes has wrapped to 0. -/
theorem start_boundary_converse_fails_on_overflow :
    (spanAllele 18446744073709551615 1).position = 18446744073709551615 ∧
    0 < (spanAllele 18446744073709551615 1).position +
          (spanAllele 18446744073709551615 1).length ∧
    (AlleleFilter.mk 18446744073709551615 0).call
      (spanAllele 18446744073709551615 1) = true := by
  decide

/-- C4 (amended): an allele whose position equals the window start is in-window
(the filter returns false) exactly when the window end is below the sum
`position + length` that the code computes modulo `2 ^ 64`; so it is in-window
only if `e < position + length`, and, when `position + length` does not
overflow, it is in-window whenever `e < position + length`. -/
theorem start_boundary_in_window_iff (s e : Nat) (a : Allele)
    (hpos : a.position = s) :
    ((AlleleFilter.mk s e).call a = false ↔
        e < (a.position + a.length) % ULONG_MOD) ∧
    ((AlleleFilter.mk s e).call a = false → e < a.position + a.length) ∧
    (a.position + a.length < ULONG_MOD → e < a.position + a.length →
        (AlleleFilter.mk s e).call a = false) := by
  have hiff : (AlleleFilter.mk s e).call a = false ↔
      e < (a.position + a.length) % ULONG_MOD := by
    rw [call_eq_false_iff]
    simp only
    exact ⟨fun h => h.2, fun h => ⟨le_of_eq hpos, h⟩⟩
  refine ⟨hiff, fun h => lt_of_lt_of_le (hiff.mp h) (wrap_le _), fun hno he => ?_⟩
  rw [hiff, wrap_of_lt hno]
  exact he

/-- Witness of C4 (amended): window `(4, 6)` and the allele with span `[4, 7)`. -/
theorem start_boundary_in_window_iff_witness :
    (spanAllele 4 3).position = 4 ∧
    (AlleleFilter.mk 4 6).call (spanAllele 4 3) = false ∧
    (((AlleleFilter.mk 4 6).call (spanAllele 4 3) = false ↔
        6 < ((spanAllele 4 3).position + (spanAllele 4 3).length) % ULONG_MOD) ∧
      ((AlleleFilter.mk 4 6).call (spanAllele 4 3) = false →
        6 < (spanAllele 4 3).position + (spanAllele 4 3).length) ∧
      ((spanAllele 4 3).position + (spanAllele 4 3).length < ULONG_MOD →
        6 < (spanAllele 4 3).position + (spanAllele 4 3).length →
        (AlleleFilter.mk 4 6).call (spanAllele 4 3) = false)) :=
  ⟨by decide, by decide,
    start_boundary_in_window_iff 4 6 (spanAllele 4 3) (by decide)⟩

/-! ## C5: zero-length alleles -/

/-- C5 (as stated, refuted): for the window `[0, 10)` the zero-length allele at
position 5 lies in the window by position, yet `withinWindow` is false. -/
theorem zero_length_not_windowed_by_position :
    (spanAllele 5 0).length = 0 ∧
    ¬ (withinWindow 0 10 (spanAllele 5 0) = true ↔
        0 ≤ (spanAllele 5 0).position ∧ (spanAllele 5 0).position < 10) := by
  decide

/-- C5 (amended): for a zero-length allele at position `p`, `withinWindow s e`
is true exactly when `p ≤ s` and `e < p`; hence it is false for every window
with `s ≤ e`, and the windows for which it is true are inverted ones
(`e < s`), such as `s = 5`, `e = 0` with `p = 3`. -/
theorem zero_length_within_iff (s e : Nat) (a : Allele)
    (hlen : a.length = 0) (hpos : a.position < ULONG_MOD) :
    (withinWindow s e a = true ↔ a.position ≤ s ∧ e < a.position) ∧
    (s ≤ e → withinWindow s e a = false) ∧
    (withinWindow s e a = true → e < s) ∧
    (∃ s' e' : Nat, ∃ b : Allele,
        b.length = 0 ∧ e' < s' ∧ withinWindow s' e' b = true) := by
  have hiff := withinWindow_iff s e a
  rw [hlen, Nat.add_zero, wrap_of_lt hpos] at hiff
  refine ⟨hiff, fun hse => ?_, fun h => ?_, ⟨5, 0, spanAllele 3 0, by decide⟩⟩
  · cases hw : withinWindow s e a
    · rfl
    · have := hiff.mp hw
      omega
  · have := hiff.mp h
    omega

/-- Witness of C5 (amended): window `(5, 0)` and the zero-length allele at 3. -/
theorem zero_length_within_iff_witness :
    withinWindow 5 0 (spanAllele 3 0) = true ∧
    ((withinWindow 5 0 (spanAllele 3 0) = true ↔
        (spanAllele 3 0).position ≤ 5 ∧ 0 < (spanAllele 3 0).position) ∧
      (5 ≤ 0 → withinWindow 5 0 (spanAllele 3 0) = false) ∧
      (withinWindow 5 0 (spanAllele 3 0) = true → 0 < 5) ∧
      (∃ s' e' : Nat, ∃ b : Allele,
        b.length = 0 ∧ e' < s' ∧ withinWindow s' e' b = true)) :=
  ⟨by decide, zero_length_within_iff 5 0 (spanAllele 3 0) (by decide) (by decide)⟩

/-! ## C6: the comparator ranks by type only -/

/-- C6: `AllelePtrCmp(a, b)` is true exactly when `a.type < b.type`; replacing
`a` and `b` by alleles of the same types (other position, length, bases,
quality, owner) does not change the result; two alleles of one type are never
ordered before one another, also at different positions; and it can order an
allele before one at a smaller position, so it is no positional order. -/
theorem allelePtrCmp_by_type_only (a b : Allele) :
    (AllelePtrCmp a b = true ↔ a.type < b.type) ∧
    (∀ a' b' : Allele, a'.type = a.type → b'.type = b.type →
        AllelePtrCmp a' b' = AllelePtrCmp a b) ∧
    (a.type = b.type → AllelePtrCmp a b = false ∧ AllelePtrCmp b a = false) ∧
    (∃ x y : Allele, x.position < y.position ∧ x.type = y.type ∧
        AllelePtrCmp x y = false ∧ AllelePtrCmp y x = false) ∧
    (∃ x y : Allele, x.position < y.position ∧ AllelePtrCmp y x = true) := by
  refine ⟨by simp [AllelePtrCmp], fun a' b' ha hb => ?_,
    (incomparable_iff_type_eq a b).mpr, ?_, ?_⟩
  · simp [AllelePtrCmp, ha, hb]
  · exact ⟨Allele.mk 1 1 AlleleType.insertion "A" 30 "r1",
      Allele.mk 9 1 AlleleType.insertion "C" 20 "r2", by decide⟩
  · exact ⟨Allele.mk 1 1 AlleleType.deletion "" 30 "r1",
      Allele.mk 9 1 AlleleType.reference "C" 20 "r2", by decide⟩

/-- Witness of C6: a substitution at 100 against a reference match at 7. -/
theorem allelePtrCmp_by_type_only_witness :
    AllelePtrCmp (Allele.mk 7 1 AlleleType.reference "A" 30 "r1")
      (Allele.mk 100 1 AlleleType.substitution "T" 12 "r2") = true ∧
    AllelePtrCmp (Allele.mk 100 1 AlleleType.substitution "T" 12 "r2")
      (Allele.mk 7 1 AlleleType.reference "A" 30 "r1") = false ∧
    (∀ a' b' : Allele,
      a'.type = (Allele.mk 100 1 AlleleType.substitution "T" 12 "r2").type →
      b'.type = (Allele.mk 7 1 AlleleType.reference "A" 30 "r1").type →
      AllelePtrCmp a' b' =
        AllelePtrCmp (Allele.mk 100 1 AlleleType.substitution "T" 12 "r2")
          (Allele.mk 7 1 AlleleType.reference "A" 30 "r1")) :=
  ⟨by decide, by decide,
    (allelePtrCmp_by_type_only (Allele.mk 100 1 AlleleType.substitution "T" 12 "r2")
      (Allele.mk 7 1 AlleleType.reference "A" 30 "r1")).2.1⟩

/-! ## C7: the two overloads of the filter -/

/-- C7: applied to a pointer whose pointee is `A`, the pointer overload of the
filter returns what the value overload returns on `A`, and both are the single
predicate `spanOutside` of the window bounds and of `A`'s position and
length. -/
theorem overloads_agree (s e : Nat) (mem : Heap) (ptr : Nat) (a : Allele)
    (hptr : mem[ptr]? = some a) :
    (AlleleFilter.mk s e).callPtr mem ptr = some ((AlleleFilter.mk s e).call a) ∧
    (AlleleFilter.mk s e).call a = spanOutside s e a.position a.length ∧
    (AlleleFilter.mk s e).callPtr mem ptr =
      some (spanOutside s e a.position a.length) := by
  have hval : (AlleleFilter.mk s e).call a = spanOutside s e a.position a.length := by
    simp [AlleleFilter.call, spanOutside]
  have hp : (AlleleFilter.mk s e).callPtr mem ptr =
      some ((AlleleFilter.mk s e).call a) := by
    simp [AlleleFilter.callPtr, AlleleFilter.call, hptr]
  exact ⟨hp, hval, by rw [hp, hval]⟩

/-- Witness of C7: a store of two alleles and the pointer to the second. -/
theorem overloads_agree_witness :
    [spanAllele 2 3, spanAllele 5 4][1]? = some (spanAllele 5 4) ∧
    (AlleleFilter.mk 7 7).callPtr [spanAllele 2 3, spanAllele 5 4] 1 = some false ∧
    ((AlleleFilter.mk 7 7).callPtr [spanAllele 2 3, spanAllele 5 4] 1 =
        some ((AlleleFilter.mk 7 7).call (spanAllele 5 4)) ∧
      (AlleleFilter.mk 7 7).call (spanAllele 5 4) =
        spanOutside 7 7 (spanAllele 5 4).position (spanAllele 5 4).length ∧
      (AlleleFilter.mk 7 7).callPtr [spanAllele 2 3, spanAllele 5 4] 1 =
        some (spanOutside 7 7 (spanAllele 5 4).position (spanAllele 5 4).length)) :=
  ⟨by decide, by decide,
    overloads_agree 7 7 [spanAllele 2 3, spanAllele 5 4] 1 (spanAllele 5 4) (by decide)⟩

/-! ## C8: the window must lie inside the span -/

/-- C8: for `s ≤ e` and no overflow in `p + l`, the filter treats the allele as
in-window exactly when `p ≤ s` and `e < p + l`, that is when every coordinate
of the closed range `[s, e]` lies in the span `[p, p + l)`; for `s = e = P`
exactly when the allele covers `P`; and an in-window allele is longer than
`e - s`. -/
theorem in_window_iff_window_inside_span (s e : Nat) (a : Allele) (hse : s ≤ e)
    (hno : a.position + a.length < ULONG_MOD) :
    ((AlleleFilter.mk s e).call a = false ↔
        a.position ≤ s ∧ e < a.position + a.length) ∧
    ((AlleleFilter.mk s e).call a = false ↔
        ∀ x, s ≤ x → x ≤ e → a.position ≤ x ∧ x < a.position + a.length) ∧
    (s = e → ((AlleleFilter.mk s e).call a = false ↔
        a.position ≤ s ∧ s < a.position + a.length)) ∧
    ((AlleleFilter.mk s e).call a = false → e - s < a.length) := by
  have hiff : (AlleleFilter.mk s e).call a = false ↔
      a.position ≤ s ∧ e < a.position + a.length := by
    rw [call_eq_false_iff, wrap_of_lt hno]
  refine ⟨hiff, ?_, fun heq => ?_, fun h => ?_⟩
  · rw [hiff]
    constructor
    · intro h x hsx hxe
      omega
    · intro h
      have h1 := h s (le_refl s) hse
      have h2 := h e hse (le_refl e)
      omega
  · rw [hiff, heq]
  · have := hiff.mp h
    omega

/-- Witness of C8: window `(3, 6)` and the allele with span `[2, 9)`. -/
theorem in_window_iff_window_inside_span_witness :
    (AlleleFilter.mk 3 6).call (spanAllele 2 7) = false ∧
    (((AlleleFilter.mk 3 6).call (spanAllele 2 7) = false ↔
        (spanAllele 2 7).position ≤ 3 ∧
          6 < (spanAllele 2 7).position + (spanAllele 2 7).length) ∧
      ((AlleleFilter.mk 3 6).call (spanAllele 2 7) = false ↔
        ∀ x, 3 ≤ x → x ≤ 6 →
          (spanAllele 2 7).position ≤ x ∧
            x < (spanAllele 2 7).position + (spanAllele 2 7).length) ∧
      (3 = 6 → ((AlleleFilter.mk 3 6).call (spanAllele 2 7) = false ↔
        (spanAllele 2 7).position ≤ 3 ∧
          3 < (spanAllele 2 7).position + (spanAllele 2 7).length)) ∧
      ((AlleleFilter.mk 3 6).call (spanAllele 2 7) = false →
        6 - 3 < (spanAllele 2 7).length)) :=
  ⟨by decide,
    in_window_iff_window_inside_span 3 6 (spanAllele 2 7) (by decide) (by decide)⟩

/-! ## C9: the comparator is a strict weak ordering -/

/-- C9: `AllelePtrCmp` is irreflexive, transitive and asymmetric, and its
incomparability relation is transitive and is equality of the types. -/
theorem allelePtrCmp_strict_weak_order (a b c : Allele) :
    AllelePtrCmp a a = false ∧
    (AllelePtrCmp a b = true → AllelePtrCmp b c = true → AllelePtrCmp a c = true) ∧
    (AllelePtrCmp a b = true → AllelePtrCmp b a = false) ∧
    ((AllelePtrCmp a b = false ∧ AllelePtrCmp b a = false) →
      (AllelePtrCmp b c = false ∧ AllelePtrCmp c b = false) →
      (AllelePtrCmp a c = false ∧ AllelePtrCmp c a = false)) ∧
    ((AllelePtrCmp a b = false ∧ AllelePtrCmp b a = false) ↔ a.type = b.type) := by
  refine ⟨?_, ?_, ?_, ?_, incomparable_iff_type_eq a b⟩
  · rw [allelePtrCmp_false_iff_val]
  · simp only [allelePtrCmp_iff_val]
    exact fun h1 h2 => lt_trans h1 h2
  · rw [allelePtrCmp_iff_val, allelePtrCmp_false_iff_val]
    exact fun h => le_of_lt h
  · simp only [incomparable_iff_type_eq]
    exact fun h1 h2 => h1.trans h2

/-- Witness of C9: a reference match, a substitution and a deletion. -/
theorem allelePtrCmp_strict_weak_order_witness :
    AllelePtrCmp (Allele.mk 7 1 AlleleType.reference "A" 30 "r1")
      (Allele.mk 7 1 AlleleType.substitution "T" 12 "r2") = true ∧
    AllelePtrCmp (Allele.mk 7 1 AlleleType.substitution "T" 12 "r2")
      (Allele.mk 7 2 AlleleType.deletion "" 40 "r3") = true ∧
    AllelePtrCmp (Allele.mk 7 1 AlleleType.reference "A" 30 "r1")
      (Allele.mk 7 2 AlleleType.deletion "" 40 "r3") = true :=
  have h := allelePtrCmp_strict_weak_order
    (Allele.mk 7 1 AlleleType.reference "A" 30 "r1")
    (Allele.mk 7 1 AlleleType.substitution "T" 12 "r2")
    (Allele.mk 7 2 AlleleType.deletion "" 40 "r3")
  ⟨by decide, by decide, h.2.1 (by decide) (by decide)⟩

/-! ## C10: a freshly constructed registered alignment -/

/-- C10: `RegisteredAlignment(x)` holds the record `x` unchanged, a mismatch
count of 0 and no alleles; so a registered alignment with a non-zero mismatch
count or with an allele is not a freshly constructed one. -/
theorem registeredAlignment_initial_state {BamAlignment : Type} (x : BamAlignment) :
    (RegisteredAlignment.new x).alignment = x ∧
    (RegisteredAlignment.new x).mismatches = 0 ∧
    (RegisteredAlignment.new x).alleles = [] ∧
    (∀ r : RegisteredAlignment BamAlignment,
      (r.mismatches ≠ 0 ∨ r.alleles ≠ []) →
      ∀ y : BamAlignment, r ≠ RegisteredAlignment.new y) := by
  refine ⟨rfl, rfl, rfl, fun r hr y hry => ?_⟩
  subst hry
  rcases hr with h | h
  · exact h rfl
  · exact h rfl

/-- Witness of C10: an alignment record standing for a read name. -/
theorem registeredAlignment_initial_state_witness :
    (RegisteredAlignment.new "read1").alignment = "read1" ∧
    (RegisteredAlignment.new "read1").mismatches = 0 ∧
    (RegisteredAlignment.new "read1").alleles = [] ∧
    RegisteredAlignment.mk "read1" [4] 2 ≠ RegisteredAlignment.new "read1" :=
  have h := registeredAlignment_initial_state "read1"
  ⟨h.1, h.2.1, h.2.2.1,
    h.2.2.2 (RegisteredAlignment.mk "read1" [4] 2) (Or.inl (by decide)) "read1"⟩

end FreeBayes
